import Mathlib

/-!
# Verification of the volpy per-triangle volume computation

Shallow embedding of `src/volpy/geometry.py` (classes `Line2D`, `Triangle`,
`TriangularMesh`).

Modelling conventions, fixed once for the whole development:

* Numeric values are modelled as `ℚ`.  The Python code feeds plain numbers
  into SymPy expressions; SymPy evaluates rational arithmetic exactly, and the
  spec's data model declares coordinates to be real numbers.  `ℚ` is the
  executable exact model of that arithmetic.
* SymPy's symbolic objects are represented by their mathematical content:
  the line expression `slope*x + linear_constant` by the coefficient pair
  `(slope, linear_constant)`, and the plane expression
  `((-a*(x-xo)-b*(y-yo))/c)+zo` (affine in `x, y`) by its coefficient triple
  `(constant, x-coefficient, y-coefficient)`.
* A Python `None` result is `Option.none`.
* When `c = 0`, the Python code divides a SymPy expression by zero; SymPy
  raises no exception there and instead produces a non-finite symbolic value
  (`zoo` / `nan`).  A non-finite ("NaN-like") value is modelled as `none`,
  and it propagates through arithmetic and through `integrate` the way NaN
  does, with one exception mirroring SymPy: a definite integral one of whose
  limit pairs is syntactically equal (`Integral.doit` checks `is_zero`,
  which is true whenever some limit pair has equal bounds) evaluates to
  exactly `0` no matter what the integrand is.
* `sympy.integrate` of the affine plane between two affine `y`-bounds and
  numeric `x`-bounds is a closed-form polynomial integral; it is embedded by
  that closed form (the spec, §9, notes the integrals are low-degree
  polynomials that may be hard-coded).  `doubleIntegral` below is exactly
  `integrate(p + q*x + r*y, (y, m1*x+k1, m2*x+k2), (x, x0, x1))`.
* `coordinates.py` and `utils.py` are not part of the sources; the pieces of
  them the geometry code needs (`CartesianCoordinate` ordering and
  subtraction, the progress sink) are modelled from the spec and flagged as
  such in their doc comments.
-/

/-- Modelled from the spec: `CartesianCoordinate` (from the repository's
`coordinates.py`, not among the sources) is an immutable 3D point value type
with attributes `x`, `y`, `z`. -/
structure CartesianCoordinate where
  x : ℚ
  y : ℚ
  z : ℚ
deriving DecidableEq

/-- Modelled from the spec: `CartesianCoordinate` is "comparable/orderable by
a total order primarily on x (ties broken by the natural total order used for
CartesianCoordinate, e.g. secondary key y then z)".  This is the order
`list.sort()` uses in `Triangle.get_volume`. -/
def CartesianCoordinate.le (p q : CartesianCoordinate) : Prop :=
  p.x < q.x ∨ (p.x = q.x ∧ (p.y < q.y ∨ (p.y = q.y ∧ p.z ≤ q.z)))

instance (p q : CartesianCoordinate) : Decidable (CartesianCoordinate.le p q) := by
  unfold CartesianCoordinate.le
  infer_instance

instance : IsTotal CartesianCoordinate CartesianCoordinate.le where
  total p q := by
    unfold CartesianCoordinate.le
    rcases lt_trichotomy p.x q.x with hx | hx | hx
    · exact Or.inl (Or.inl hx)
    · rcases lt_trichotomy p.y q.y with hy | hy | hy
      · exact Or.inl (Or.inr ⟨hx, Or.inl hy⟩)
      · rcases le_total p.z q.z with hz | hz
        · exact Or.inl (Or.inr ⟨hx, Or.inr ⟨hy, hz⟩⟩)
        · exact Or.inr (Or.inr ⟨hx.symm, Or.inr ⟨hy.symm, hz⟩⟩)
      · exact Or.inr (Or.inr ⟨hx.symm, Or.inl hy⟩)
    · exact Or.inr (Or.inl hx)

instance : IsTrans CartesianCoordinate CartesianCoordinate.le where
  trans p q r h1 h2 := by
    unfold CartesianCoordinate.le at h1 h2 ⊢
    rcases h1 with h1 | ⟨hx1, h1⟩
    · rcases h2 with h2 | ⟨hx2, _⟩
      · exact Or.inl (h1.trans h2)
      · exact Or.inl (hx2 ▸ h1)
    · rcases h2 with h2 | ⟨hx2, h2⟩
      · exact Or.inl (hx1 ▸ h2)
      · refine Or.inr ⟨hx1.trans hx2, ?_⟩
        rcases h1 with h1 | ⟨hy1, h1⟩
        · rcases h2 with h2 | ⟨hy2, _⟩
          · exact Or.inl (h1.trans h2)
          · exact Or.inl (hy2 ▸ h1)
        · rcases h2 with h2 | ⟨hy2, h2⟩
          · exact Or.inl (hy1 ▸ h2)
          · exact Or.inr ⟨hy1.trans hy2, h1.trans h2⟩

instance : IsAntisymm CartesianCoordinate CartesianCoordinate.le where
  antisymm p q h1 h2 := by
    unfold CartesianCoordinate.le at h1 h2
    have hx : p.x = q.x := by
      rcases h1 with h1 | ⟨hx1, _⟩
      · rcases h2 with h2 | ⟨hx2, _⟩
        · exact absurd h2 (lt_asymm h1)
        · exact absurd hx2 (ne_of_gt h1)
      · exact hx1
    rcases h1 with h1 | ⟨_, h1⟩
    · exact absurd hx (ne_of_lt h1)
    rcases h2 with h2 | ⟨_, h2⟩
    · exact absurd hx.symm (ne_of_lt h2)
    have hy : p.y = q.y := by
      rcases h1 with h1 | ⟨hy1, _⟩
      · rcases h2 with h2 | ⟨hy2, _⟩
        · exact absurd h2 (lt_asymm h1)
        · exact absurd hy2 (ne_of_gt h1)
      · exact hy1
    rcases h1 with h1 | ⟨_, h1⟩
    · exact absurd hy (ne_of_lt h1)
    rcases h2 with h2 | ⟨_, h2⟩
    · exact absurd hy.symm (ne_of_lt h2)
    have hz : p.z = q.z := le_antisymm h1 h2
    cases p
    cases q
    simp_all

/-- Modelled from the spec: vector subtraction ("difference of two coordinates
yields a 3D displacement vector"), used as `point_B - point_A` in
`Triangle.get_plane_equation`. -/
def vsub (p q : CartesianCoordinate) : ℚ × ℚ × ℚ :=
  (p.x - q.x, p.y - q.y, p.z - q.z)

/-- `np.cross` on 3-vectors, as called by `Triangle.get_plane_equation`. -/
def cross (u v : ℚ × ℚ × ℚ) : ℚ × ℚ × ℚ :=
  (u.2.1 * v.2.2 - u.2.2 * v.2.1,
   u.2.2 * v.1 - u.1 * v.2.2,
   u.1 * v.2.1 - u.2.1 * v.1)

/-- `Line2D`: a 2-dimensional line given by two points (their x-y
projection). -/
structure Line2D where
  point_A : CartesianCoordinate
  point_B : CartesianCoordinate

/-- `Line2D.get_line_equation`: returns `None` when
`point_B.x - point_A.x == 0` (line parallel to the y axis), otherwise the
SymPy expression `slope*x + linear_constant` with
`slope = (yB - yA)/(xB - xA)` and `linear_constant = -slope*xA + yA`,
represented by the pair `(slope, linear_constant)`. -/
def Line2D.get_line_equation (l : Line2D) : Option (ℚ × ℚ) :=
  if l.point_B.x - l.point_A.x = 0 then
    none
  else
    let slope := (l.point_B.y - l.point_A.y) / (l.point_B.x - l.point_A.x)
    some (slope, -slope * l.point_A.x + l.point_A.y)

/-- `Triangle`: a triangle in a 3D Cartesian coordinate system. -/
structure Triangle where
  point_A : CartesianCoordinate
  point_B : CartesianCoordinate
  point_C : CartesianCoordinate

/-- The normal vector `np.cross(vector_AB, vector_BC)` computed by
`Triangle.get_plane_equation`. -/
def Triangle.normal_vector (t : Triangle) : ℚ × ℚ × ℚ :=
  cross (vsub t.point_B t.point_A) (vsub t.point_C t.point_B)

/-- The coefficient triple `(constant, x-coefficient, y-coefficient)` of the
SymPy expression `((-a*(x-xo)-b*(y-yo))/c)+zo` returned by
`Triangle.get_plane_equation`, with `(a,b,c)` the normal vector and
`(xo,yo,zo) = point_A`: expanding, the expression is
`zo + (a*xo + b*yo)/c + (-a/c)*x + (-b/c)*y`. -/
def Triangle.planeCoeffs (t : Triangle) : ℚ × ℚ × ℚ :=
  let a := t.normal_vector.1
  let b := t.normal_vector.2.1
  let c := t.normal_vector.2.2
  (t.point_A.z + (a * t.point_A.x + b * t.point_A.y) / c, -a / c, -b / c)

/-- `Triangle.get_plane_equation`: the code divides by `c` with no check.
When `c = 0` SymPy silently yields a non-finite expression (`zoo`/`nan`),
modelled as `none`; no exception is raised by the Python code on that path.
Otherwise the result is the affine height function, represented by its
coefficient triple. -/
def Triangle.get_plane_equation (t : Triangle) : Option (ℚ × ℚ × ℚ) :=
  if t.normal_vector.2.2 = 0 then none else some t.planeCoeffs

/-- Evaluation of an affine height function given by its coefficient triple:
`z(x, y) = p + q*x + r*y`. -/
def planeFun (co : ℚ × ℚ × ℚ) (x y : ℚ) : ℚ :=
  co.1 + co.2.1 * x + co.2.2 * y

/-- Coefficients `(A, B, C)` of the quadratic
`A + B*x + C*x^2 = (p + q*x) * (g2 x - g1 x) + r/2 * ((g2 x)^2 - (g1 x)^2)`,
which is the inner integral `∫ y in g1 x..g2 x, (p + q*x + r*y)` for the
affine bounds `g1 x = m1*x + k1`, `g2 x = m2*x + k2`. -/
def innerCoeffs (p q r m1 k1 m2 k2 : ℚ) : ℚ × ℚ × ℚ :=
  (p * (k2 - k1) + r / 2 * (k2 ^ 2 - k1 ^ 2),
   p * (m2 - m1) + q * (k2 - k1) + r * (m2 * k2 - m1 * k1),
   q * (m2 - m1) + r / 2 * (m2 ^ 2 - m1 ^ 2))

/-- `∫ x in x0..x1, (A + B*x + C*x^2)` in closed form. -/
def polyInt3 (A B C x0 x1 : ℚ) : ℚ :=
  A * (x1 - x0) + B / 2 * (x1 ^ 2 - x0 ^ 2) + C / 3 * (x1 ^ 3 - x0 ^ 3)

/-- Closed form of
`integrate(p + q*x + r*y, (y, m1*x + k1, m2*x + k2), (x, x0, x1))`:
the inner integral is the quadratic `innerCoeffs`, the outer integral is
`polyInt3` of that quadratic. -/
def doubleIntegral (co : ℚ × ℚ × ℚ) (g1 g2 : ℚ × ℚ) (x0 x1 : ℚ) : ℚ :=
  let ic := innerCoeffs co.1 co.2.1 co.2.2 g1.1 g1.2 g2.1 g2.2
  polyInt3 ic.1 ic.2.1 ic.2.2 x0 x1

/-- The local function `compute_double_integral` of `Triangle.get_volume`:
returns `0.0` when either line equation is `None` (vertical line); otherwise
`integrate(plane, (y, line_from, line_to), (x, from, to))`.  SymPy's
`Integral.doit` returns exactly `0` when a limit pair has syntactically equal
bounds (its `is_zero` shortcut), even for a non-finite integrand, so that
case is checked before the non-finite plane (`none`) propagates. -/
def compute_double_integral (plane : Option (ℚ × ℚ × ℚ))
    (outer_boundary_from outer_boundary_to : ℚ)
    (line_from_equation line_to_equation : Option (ℚ × ℚ)) : Option ℚ :=
  match line_from_equation, line_to_equation with
  | none, _ => some 0
  | _, none => some 0
  | some g1, some g2 =>
      if g1 = g2 ∨ outer_boundary_from = outer_boundary_to then some 0
      else plane.map fun co =>
        doubleIntegral co g1 g2 outer_boundary_from outer_boundary_to

/-- `points.sort()` on the three-element list `[point_A, point_B, point_C]`,
using the `CartesianCoordinate` total order; returns the sorted triple. -/
def sort3 (a b c : CartesianCoordinate) :
    CartesianCoordinate × CartesianCoordinate × CartesianCoordinate :=
  match List.insertionSort CartesianCoordinate.le [a, b, c] with
  | [p, q, r] => (p, q, r)
  | _ => (a, b, c)

/-- NaN-propagating `abs(v1) + abs(v2)` (Python: `abs` of SymPy `nan` is
`nan`, and adding `nan` gives `nan`). -/
def optAbsAdd (v1 v2 : Option ℚ) : Option ℚ :=
  match v1, v2 with
  | some a, some b => some (|a| + |b|)
  | _, _ => none

/-- NaN-propagating addition, as used by the `mesh_volume += volume`
accumulation. -/
def optAdd (v1 v2 : Option ℚ) : Option ℚ :=
  match v1, v2 with
  | some a, some b => some (a + b)
  | _, _ => none

/-- `Triangle.get_volume`: derives the plane, sorts the points on the x
coordinate, instantiates the three lines, computes the two strip integrals,
and returns `abs(volume1) + abs(volume2)`. -/
def Triangle.get_volume (t : Triangle) : Option ℚ :=
  let plane := t.get_plane_equation
  match sort3 t.point_A t.point_B t.point_C with
  | (sorted_point_A, sorted_point_B, sorted_point_C) =>
    let lineAB := Line2D.mk sorted_point_A sorted_point_B
    let lineBC := Line2D.mk sorted_point_B sorted_point_C
    let lineAC := Line2D.mk sorted_point_A sorted_point_C
    let volume1 := compute_double_integral plane
      sorted_point_A.x sorted_point_B.x
      lineAC.get_line_equation lineAB.get_line_equation
    let volume2 := compute_double_integral plane
      sorted_point_B.x sorted_point_C.x
      lineAC.get_line_equation lineBC.get_line_equation
    optAbsAdd volume1 volume2

/-- A row of the point-cloud dataframe: named fields `x`, `y`, `z` and an
`elevation` column (present in the store, unused by the volume
computation). -/
structure Row where
  x : ℚ
  y : ℚ
  z : ℚ
  elevation : ℚ
deriving DecidableEq

/-- `point_cloud.iloc[i]`; the triangulation provider's contract guarantees
in-range indices, out-of-range access is defaulted. -/
def rowAt (point_cloud : List Row) (i : ℕ) : Row :=
  point_cloud.getD i ⟨0, 0, 0, 0⟩

/-- `CartesianCoordinate(row['x'], row['y'], row['z'])`. -/
def coordOfRow (row : Row) : CartesianCoordinate :=
  ⟨row.x, row.y, row.z⟩

/-- `TriangularMesh`: the point cloud together with the triangulation
`data` (index triples).  `data` is produced by the external Delaunay
collaborator, treated as an opaque input here. -/
structure TriangularMesh where
  point_cloud : List Row
  data : List (ℕ × ℕ × ℕ)

/-- The triangle built from rows `i, j, k` of the point cloud, as in the body
of the `TriangularMesh.get_volume` loop. -/
def triangleOfRows (point_cloud : List Row) (ijk : ℕ × ℕ × ℕ) : Triangle :=
  ⟨coordOfRow (rowAt point_cloud ijk.1),
   coordOfRow (rowAt point_cloud ijk.2.1),
   coordOfRow (rowAt point_cloud ijk.2.2)⟩

/-- `TriangularMesh.get_volume`: starts from `mesh_volume = 0` and
accumulates `mesh_volume += triangle.get_volume()` over all index triples
(the progress call has no effect on the accumulation). -/
def TriangularMesh.get_volume (m : TriangularMesh) : Option ℚ :=
  m.data.foldl (fun acc ijk => optAdd acc (triangleOfRows m.point_cloud ijk).get_volume)
    (some 0)

/-- The `TriangularMesh.get_volume` loop with the progress sink made
explicit.  Modelled from the spec: the sink (`print_progress` from the
repository's `utils.py`, not among the sources) is an external collaborator
receiving `(iteration, data_amount)`; `sink i n = false` models a sink call
that raises.  The loop body has no exception handling, so a raising sink
call aborts the whole computation (`Except.error`). -/
def volumeLoop (point_cloud : List Row) (data_amount : ℕ) (sink : ℕ → ℕ → Bool) :
    List (ℕ × ℕ × ℕ) → ℕ → Option ℚ → Except Unit (Option ℚ)
  | [], _, acc => .ok acc
  | ijk :: rest, iteration, acc =>
      let volume := (triangleOfRows point_cloud ijk).get_volume
      let acc2 := optAdd acc volume
      if sink (iteration + 1) data_amount then
        volumeLoop point_cloud data_amount sink rest (iteration + 1) acc2
      else
        .error ()

/-- `TriangularMesh.get_volume` with an explicit progress sink. -/
def TriangularMesh.get_volume_progress (m : TriangularMesh) (sink : ℕ → ℕ → Bool) :
    Except Unit (Option ℚ) :=
  volumeLoop m.point_cloud m.data.length sink m.data 0 (some 0)

/-! ### Definitions following the spec's words (for refinement claims) -/

/-- From the spec's words (§4.1): the line through two projected points,
`Vertical` sentinel exactly when the x-coordinates are equal, otherwise
`slope = (yB-yA)/(xB-xA)` and `intercept = yA - slope*xA`. -/
def specLineThrough (P Q : CartesianCoordinate) : Option (ℚ × ℚ) :=
  if Q.x = P.x then none
  else some ((Q.y - P.y) / (Q.x - P.x), P.y - (Q.y - P.y) / (Q.x - P.x) * P.x)

/-- From the claim's words: strip 1 integrates the plane's height function
over `y` between edges `A'C'` and `A'B'` and `x` from `A'.x` to `B'.x`
(`A', B', C'` the vertices sorted ascending by x); a strip whose bounding
edge is vertical contributes exactly 0.  A strip whose two `y`-bounds are
the same function (or whose `x`-range is a point) is a degenerate region of
zero width, whose integral is 0 whatever the integrand. -/
def spec_strip_1 (t : Triangle) : Option ℚ :=
  match sort3 t.point_A t.point_B t.point_C with
  | (sA, sB, sC) =>
    match specLineThrough sA sC, specLineThrough sA sB with
    | none, _ => some 0
    | _, none => some 0
    | some gAC, some gAB =>
        if gAC = gAB ∨ sA.x = sB.x then some 0
        else t.get_plane_equation.map fun co => doubleIntegral co gAC gAB sA.x sB.x

/-- From the claim's words: strip 2 integrates the plane's height function
over `y` between edges `A'C'` and `B'C'` and `x` from `B'.x` to `C'.x`;
vertical bounding edges and degenerate regions as in `spec_strip_1`. -/
def spec_strip_2 (t : Triangle) : Option ℚ :=
  match sort3 t.point_A t.point_B t.point_C with
  | (sA, sB, sC) =>
    match specLineThrough sA sC, specLineThrough sB sC with
    | none, _ => some 0
    | _, none => some 0
    | some gAC, some gBC =>
        if gAC = gBC ∨ sB.x = sC.x then some 0
        else t.get_plane_equation.map fun co => doubleIntegral co gAC gBC sB.x sC.x

/-- From the claim's words (C1): three points are non-collinear when the
cross product of the edge vectors `B - A` and `C - A` is nonzero. -/
def nonCollinear (t : Triangle) : Prop :=
  cross (vsub t.point_B t.point_A) (vsub t.point_C t.point_A) ≠ (0, 0, 0)

instance (t : Triangle) : Decidable (nonCollinear t) := by
  unfold nonCollinear
  infer_instance

/-- From the spec's words (§4.3): the unweighted sum of a list of
per-triangle volumes (NaN-propagating). -/
def optSum (l : List (Option ℚ)) : Option ℚ :=
  l.foldr optAdd (some 0)

/-- The spec's hand-built 2-triangle mesh: a unit square footprint at
constant height `h`, `A=(0,0,h)`, `B=(1,0,h)`, `C=(1,1,h)`, `D=(0,1,h)`,
split into triangles `ABC` and `ACD`. -/
def unitSquareMesh (h : ℚ) : TriangularMesh :=
  ⟨[⟨0, 0, h, 0⟩, ⟨1, 0, h, 0⟩, ⟨1, 1, h, 0⟩, ⟨0, 1, h, 0⟩],
   [(0, 1, 2), (0, 2, 3)]⟩

/-- Replace the `elevation` column of every row (keeping `x`, `y`, `z`),
used to state that the volume computation does not consume elevation. -/
def setElevation (g : Row → ℚ) (row : Row) : Row :=
  ⟨row.x, row.y, row.z, g row⟩

/-! ### Supporting lemmas -/

theorem sort3_charac (a b c : CartesianCoordinate) :
    ∃ p q r, sort3 a b c = (p, q, r) ∧
      List.insertionSort CartesianCoordinate.le [a, b, c] = [p, q, r] ∧
      List.Perm [p, q, r] [a, b, c] ∧
      CartesianCoordinate.le p q ∧ CartesianCoordinate.le q r := by
  have hperm := List.perm_insertionSort CartesianCoordinate.le [a, b, c]
  have hsorted := List.sorted_insertionSort CartesianCoordinate.le [a, b, c]
  have hlen : (List.insertionSort CartesianCoordinate.le [a, b, c]).length = 3 :=
    hperm.length_eq
  rcases hq : List.insertionSort CartesianCoordinate.le [a, b, c] with _ | ⟨p, _ | ⟨q, _ | ⟨r, _ | s⟩⟩⟩ <;>
    rw [hq] at hlen <;> simp at hlen
  rw [hq] at hperm hsorted
  rcases List.sorted_cons.mp hsorted with ⟨hp, hsorted2⟩
  rcases List.sorted_cons.mp hsorted2 with ⟨hq2, -⟩
  refine ⟨p, q, r, ?_, rfl, hperm, hp q (by simp), hq2 r (by simp)⟩
  simp only [sort3]
  rw [hq]

theorem sort3_perm_congr {a b c a2 b2 c2 : CartesianCoordinate}
    (h : List.Perm [a, b, c] [a2, b2, c2]) : sort3 a b c = sort3 a2 b2 c2 := by
  obtain ⟨p, q, r, hs2, hl2, -, -, -⟩ := sort3_charac a2 b2 c2
  have he : List.insertionSort CartesianCoordinate.le [a, b, c] = [p, q, r] := by
    rw [← hl2]
    exact List.eq_of_perm_of_sorted
      (((List.perm_insertionSort _ _).trans h).trans
        (List.perm_insertionSort _ _).symm)
      (List.sorted_insertionSort _ _) (List.sorted_insertionSort _ _)
  rw [hs2]
  simp only [sort3]
  rw [he]

theorem get_volume_congr {t1 t2 : Triangle}
    (hplane : t1.get_plane_equation = t2.get_plane_equation)
    (hsort : sort3 t1.point_A t1.point_B t1.point_C =
      sort3 t2.point_A t2.point_B t2.point_C) :
    t1.get_volume = t2.get_volume := by
  unfold Triangle.get_volume
  rw [hplane, hsort]

theorem gpe_swapAB (A B C : CartesianCoordinate) :
    (Triangle.mk B A C).get_plane_equation = (Triangle.mk A B C).get_plane_equation := by
  obtain ⟨ax, ay, az⟩ := A
  obtain ⟨bx, b_y, bz⟩ := B
  obtain ⟨cx, cy, cz⟩ := C
  simp only [Triangle.get_plane_equation, Triangle.planeCoeffs, Triangle.normal_vector,
    cross, vsub]
  split_ifs with h1 h2 h2
  · rfl
  · exact absurd (by linear_combination -h1) h2
  · exact absurd (by linear_combination -h2) h1
  · simp only [Option.some.injEq, Prod.mk.injEq]
    refine ⟨?_, ?_, ?_⟩
    · field_simp
      ring
    · field_simp
      ring
    · field_simp
      ring

theorem gpe_rot (A B C : CartesianCoordinate) :
    (Triangle.mk B C A).get_plane_equation = (Triangle.mk A B C).get_plane_equation := by
  obtain ⟨ax, ay, az⟩ := A
  obtain ⟨bx, b_y, bz⟩ := B
  obtain ⟨cx, cy, cz⟩ := C
  simp only [Triangle.get_plane_equation, Triangle.planeCoeffs, Triangle.normal_vector,
    cross, vsub]
  split_ifs with h1 h2 h2
  · rfl
  · exact absurd (by linear_combination h1) h2
  · exact absurd (by linear_combination h2) h1
  · simp only [Option.some.injEq, Prod.mk.injEq]
    refine ⟨?_, ?_, ?_⟩
    · field_simp
      ring
    · field_simp
      ring
    · field_simp
      ring

theorem vol_swapAB (A B C : CartesianCoordinate) :
    (Triangle.mk B A C).get_volume = (Triangle.mk A B C).get_volume :=
  get_volume_congr (gpe_swapAB A B C) (sort3_perm_congr (List.Perm.swap A B [C]))

theorem vol_rot (A B C : CartesianCoordinate) :
    (Triangle.mk B C A).get_volume = (Triangle.mk A B C).get_volume :=
  get_volume_congr (gpe_rot A B C)
    (sort3_perm_congr (((List.Perm.swap A C []).cons B).trans (List.Perm.swap A B [C])))

theorem le_refl_coord (p : CartesianCoordinate) : CartesianCoordinate.le p p :=
  Or.inr ⟨rfl, Or.inr ⟨rfl, le_refl _⟩⟩

theorem specLineThrough_eq_get_line_equation (P Q : CartesianCoordinate) :
    specLineThrough P Q = (Line2D.mk P Q).get_line_equation := by
  unfold specLineThrough Line2D.get_line_equation
  rcases eq_or_ne Q.x P.x with h | h
  · rw [if_pos h, if_pos (by rw [h, sub_self])]
  · rw [if_neg h, if_neg (sub_ne_zero.mpr h)]
    simp only [Option.some.injEq, Prod.mk.injEq, eq_self_iff_true, true_and]
    ring

/-- C5: `Line2D.get_line_equation` returns the vertical sentinel (`None`)
exactly when `point_B.x = point_A.x`, and otherwise the linear function with
slope `(yB-yA)/(xB-xA)` and intercept `yA - slope*xA`; there is no other
failure condition (the result is always one of these two). -/
theorem C5_line_equation (l : Line2D) :
    (l.get_line_equation = none ↔ l.point_B.x = l.point_A.x) ∧
    (l.point_B.x ≠ l.point_A.x →
      l.get_line_equation =
        some ((l.point_B.y - l.point_A.y) / (l.point_B.x - l.point_A.x),
          l.point_A.y -
            (l.point_B.y - l.point_A.y) / (l.point_B.x - l.point_A.x) * l.point_A.x)) := by
  constructor
  · unfold Line2D.get_line_equation
    split_ifs with h
    · simp [sub_eq_zero.mp h]
    · simp [sub_ne_zero.mp h]
  · intro h
    unfold Line2D.get_line_equation
    rw [if_neg (sub_ne_zero.mpr h)]
    simp only [Option.some.injEq, Prod.mk.injEq, eq_self_iff_true, true_and]
    ring

/-- Witness for C5 at the concrete line from `(0,0)` to `(2,4)`. -/
theorem C5_line_equation_witness :
    ((2 : ℚ) ≠ (0 : ℚ)) ∧
    (Line2D.mk ⟨0, 0, 0⟩ ⟨2, 4, 0⟩).get_line_equation =
      some (((4 : ℚ) - 0) / (2 - 0), 0 - ((4 : ℚ) - 0) / (2 - 0) * 0) :=
  ⟨by norm_num, (C5_line_equation (Line2D.mk ⟨0, 0, 0⟩ ⟨2, 4, 0⟩)).2 (by norm_num)⟩

/-- C10: `Line2D.get_line_equation` is symmetric in the two endpoints:
`Line2D(P, Q)` and `Line2D(Q, P)` derive the same result, either both the
vertical sentinel or the same slope-intercept pair. -/
theorem C10_line_equation_symmetric (P Q : CartesianCoordinate) :
    (Line2D.mk P Q).get_line_equation = (Line2D.mk Q P).get_line_equation := by
  unfold Line2D.get_line_equation
  split_ifs with h1 h2 h2
  · rfl
  · exact absurd (by linarith [sub_eq_zero.mp h1]) h2
  · exact absurd (by linarith [sub_eq_zero.mp h2]) h1
  · simp only [Option.some.injEq, Prod.mk.injEq]
    constructor
    · field_simp
      ring
    · field_simp
      ring

/-- C1 (amended): for every triangle whose normal vector has nonzero
z-component `c`, `Triangle.get_plane_equation` returns the affine height
function, and that function interpolates all three vertices exactly:
`z(A.x,A.y)=A.z`, `z(B.x,B.y)=B.z`, `z(C.x,C.y)=C.z`.  (The claim's
hypothesis "non-collinear" is not sufficient: a non-collinear triangle lying
in a vertical plane has `c = 0` and no height function is returned, see the
counterexample.) -/
theorem C1_plane_interpolates (t : Triangle) (hc : t.normal_vector.2.2 ≠ 0) :
    t.get_plane_equation = some t.planeCoeffs ∧
    planeFun t.planeCoeffs t.point_A.x t.point_A.y = t.point_A.z ∧
    planeFun t.planeCoeffs t.point_B.x t.point_B.y = t.point_B.z ∧
    planeFun t.planeCoeffs t.point_C.x t.point_C.y = t.point_C.z := by
  refine ⟨if_neg hc, ?_, ?_, ?_⟩ <;>
  · obtain ⟨⟨ax, ay, az⟩, ⟨bx, b_y, bz⟩, ⟨cx, cy, cz⟩⟩ := t
    simp only [Triangle.normal_vector, cross, vsub] at hc
    simp only [planeFun, Triangle.planeCoeffs, Triangle.normal_vector, cross, vsub]
    field_simp
    ring

/-- Counterexample to C1 as stated: the triangle `(0,0,0), (0,1,0), (0,0,1)`
is non-collinear, yet it lies in a vertical plane (`c = 0`), so
`get_plane_equation` returns no height function at all (SymPy produces a
non-finite expression); in particular no function interpolating the three
vertices is returned. -/
theorem C1_counterexample :
    nonCollinear (Triangle.mk ⟨0, 0, 0⟩ ⟨0, 1, 0⟩ ⟨0, 0, 1⟩) ∧
    (Triangle.mk ⟨0, 0, 0⟩ ⟨0, 1, 0⟩ ⟨0, 0, 1⟩).get_plane_equation = none := by
  constructor
  · norm_num [nonCollinear, cross, vsub, Prod.ext_iff]
  · norm_num [Triangle.get_plane_equation, Triangle.normal_vector, cross, vsub]

/-- Witness for C1 at the tetrahedron face `(0,0,0), (1,0,0), (0,1,1)`
(normal `(0,-1,1)`, `c = 1`). -/
theorem C1_plane_interpolates_witness :
    (Triangle.mk ⟨0, 0, 0⟩ ⟨1, 0, 0⟩ ⟨0, 1, 1⟩).normal_vector.2.2 ≠ 0 ∧
    ((Triangle.mk ⟨0, 0, 0⟩ ⟨1, 0, 0⟩ ⟨0, 1, 1⟩).get_plane_equation =
        some (Triangle.mk ⟨0, 0, 0⟩ ⟨1, 0, 0⟩ ⟨0, 1, 1⟩).planeCoeffs ∧
      planeFun (Triangle.mk ⟨0, 0, 0⟩ ⟨1, 0, 0⟩ ⟨0, 1, 1⟩).planeCoeffs 0 0 = 0 ∧
      planeFun (Triangle.mk ⟨0, 0, 0⟩ ⟨1, 0, 0⟩ ⟨0, 1, 1⟩).planeCoeffs 1 0 = 0 ∧
      planeFun (Triangle.mk ⟨0, 0, 0⟩ ⟨1, 0, 0⟩ ⟨0, 1, 1⟩).planeCoeffs 0 1 = 1) :=
  ⟨by norm_num [Triangle.normal_vector, cross, vsub],
   C1_plane_interpolates (Triangle.mk ⟨0, 0, 0⟩ ⟨1, 0, 0⟩ ⟨0, 1, 1⟩)
     (by norm_num [Triangle.normal_vector, cross, vsub])⟩

/-- C3 is violated by the code (`code_bug`): for the triangle
`(0,0,0), (1,0,1), (2,0,0)`, which lies in a vertical plane (`c = 0`, second
conjunct), `get_plane_equation` performs an unchecked division by zero —
SymPy silently yields a non-finite expression (modelled `none`), no
distinct, catchable error is raised — and `get_volume` then silently
returns `0.0` (both strips have syntactically equal `y`-bounds, which
SymPy's equal-limits shortcut evaluates to `0`). -/
theorem C3_no_error_on_vertical_plane :
    (Triangle.mk ⟨0, 0, 0⟩ ⟨1, 0, 1⟩ ⟨2, 0, 0⟩).normal_vector.2.2 = 0 ∧
    (Triangle.mk ⟨0, 0, 0⟩ ⟨1, 0, 1⟩ ⟨2, 0, 0⟩).get_plane_equation = none ∧
    (Triangle.mk ⟨0, 0, 0⟩ ⟨1, 0, 1⟩ ⟨2, 0, 0⟩).get_volume = some 0 := by
  refine ⟨?_, ?_, ?_⟩
  · norm_num [Triangle.normal_vector, cross, vsub]
  · norm_num [Triangle.get_plane_equation, Triangle.normal_vector, cross, vsub]
  · norm_num [Triangle.get_volume, Triangle.get_plane_equation, Triangle.planeCoeffs,
      Triangle.normal_vector, cross, vsub, sort3, List.insertionSort, List.orderedInsert,
      CartesianCoordinate.le, Line2D.get_line_equation, compute_double_integral,
      doubleIntegral, innerCoeffs, polyInt3, optAbsAdd, Prod.ext_iff]

/-- C2: for every triangle, `get_volume` is `|strip 1| + |strip 2|` (with the
NaN-propagating sum `optAbsAdd`), where strip 1 integrates the plane's height
function over `y` between edges `A'C'` and `A'B'` and `x` from `A'.x` to
`B'.x`, strip 2 between `A'C'` and `B'C'` and `x` from `B'.x` to `C'.x`
(`A', B', C'` sorted ascending by x), and a strip whose bounding edge is
vertical contributes exactly 0 (`spec_strip_1`/`spec_strip_2` are built from
the claim's words, on top of `specLineThrough` from the spec's §4.1). -/
theorem C2_volume_is_strip_sum (t : Triangle) :
    t.get_volume = optAbsAdd (spec_strip_1 t) (spec_strip_2 t) := by
  obtain ⟨p, q, r, hs, -, -, -, -⟩ := sort3_charac t.point_A t.point_B t.point_C
  unfold Triangle.get_volume spec_strip_1 spec_strip_2
  rw [hs]
  dsimp only
  rw [specLineThrough_eq_get_line_equation, specLineThrough_eq_get_line_equation,
    specLineThrough_eq_get_line_equation]
  rfl

/-- C7: a triangle whose three vertices share one x-coordinate has volume
exactly 0 (both strips are bounded by vertical edges), with no error: the
returned value is the number `0`, not the NaN-like `none`. -/
theorem C7_all_x_equal_volume_zero (t : Triangle)
    (hab : t.point_A.x = t.point_B.x) (hbc : t.point_B.x = t.point_C.x) :
    t.get_volume = some 0 := by
  obtain ⟨p, q, r, hs, -, hperm, -, -⟩ := sort3_charac t.point_A t.point_B t.point_C
  have hx : ∀ u ∈ ([p, q, r] : List CartesianCoordinate), u.x = t.point_A.x := by
    intro u hu
    have hm := hperm.subset hu
    simp only [List.mem_cons, List.mem_singleton, List.not_mem_nil, or_false] at hm
    rcases hm with h | h | h
    · rw [h]
    · rw [h, ← hab]
    · rw [h, ← hbc, ← hab]
  have hpq : (Line2D.mk p q).get_line_equation = none := by
    unfold Line2D.get_line_equation
    rw [if_pos (by rw [hx q (by simp), hx p (by simp), sub_self])]
  have hqr : (Line2D.mk q r).get_line_equation = none := by
    unfold Line2D.get_line_equation
    rw [if_pos (by rw [hx r (by simp), hx q (by simp), sub_self])]
  have hpr : (Line2D.mk p r).get_line_equation = none := by
    unfold Line2D.get_line_equation
    rw [if_pos (by rw [hx r (by simp), hx p (by simp), sub_self])]
  unfold Triangle.get_volume
  rw [hs]
  simp only
  rw [hpq, hqr, hpr]
  simp [compute_double_integral, optAbsAdd]

/-- Witness for C7 at the triangle `(0,0,0), (0,1,2), (0,5,1)`. -/
theorem C7_all_x_equal_volume_zero_witness :
    ((Triangle.mk ⟨0, 0, 0⟩ ⟨0, 1, 2⟩ ⟨0, 5, 1⟩).point_A.x =
        (Triangle.mk ⟨0, 0, 0⟩ ⟨0, 1, 2⟩ ⟨0, 5, 1⟩).point_B.x) ∧
    ((Triangle.mk ⟨0, 0, 0⟩ ⟨0, 1, 2⟩ ⟨0, 5, 1⟩).point_B.x =
        (Triangle.mk ⟨0, 0, 0⟩ ⟨0, 1, 2⟩ ⟨0, 5, 1⟩).point_C.x) ∧
    (Triangle.mk ⟨0, 0, 0⟩ ⟨0, 1, 2⟩ ⟨0, 5, 1⟩).get_volume = some 0 :=
  ⟨rfl, rfl, C7_all_x_equal_volume_zero (Triangle.mk ⟨0, 0, 0⟩ ⟨0, 1, 2⟩ ⟨0, 5, 1⟩) rfl rfl⟩

theorem vol_coincident_head (P R : CartesianCoordinate) :
    (Triangle.mk P P R).get_volume = some 0 := by
  by_cases hle : CartesianCoordinate.le P R
  · have h1 : List.insertionSort CartesianCoordinate.le [P, P, R] = [P, P, R] := by
      simp [List.insertionSort, List.orderedInsert, hle, le_refl_coord P]
    have hs : sort3 P P R = (P, P, R) := by
      simp only [sort3]
      rw [h1]
    unfold Triangle.get_volume
    rw [show (Triangle.mk P P R).point_A = P from rfl,
      show (Triangle.mk P P R).point_B = P from rfl,
      show (Triangle.mk P P R).point_C = R from rfl, hs]
    dsimp only
    have hv : (Line2D.mk P P).get_line_equation = none := by
      unfold Line2D.get_line_equation
      rw [if_pos (sub_self P.x)]
    rw [hv]
    rcases hPR : (Line2D.mk P R).get_line_equation with _ | g
    · simp [compute_double_integral, optAbsAdd]
    · simp only [compute_double_integral]
      simp [optAbsAdd]
  · have hle2 : CartesianCoordinate.le R P :=
      (total_of CartesianCoordinate.le P R).resolve_left hle
    have h1 : List.insertionSort CartesianCoordinate.le [P, P, R] = [R, P, P] := by
      simp [List.insertionSort, List.orderedInsert, hle, le_refl_coord P]
    have hs : sort3 P P R = (R, P, P) := by
      simp only [sort3]
      rw [h1]
    unfold Triangle.get_volume
    rw [show (Triangle.mk P P R).point_A = P from rfl,
      show (Triangle.mk P P R).point_B = P from rfl,
      show (Triangle.mk P P R).point_C = R from rfl, hs]
    dsimp only
    have hv : (Line2D.mk P P).get_line_equation = none := by
      unfold Line2D.get_line_equation
      rw [if_pos (sub_self P.x)]
    rw [hv]
    rcases hRP : (Line2D.mk R P).get_line_equation with _ | g
    · simp [compute_double_integral, optAbsAdd]
    · simp only [compute_double_integral]
      simp [optAbsAdd]

/-- C6: a triangle two of whose vertices coincide (degenerate zero-area
triangle) has volume 0: the strip bounded by the edge joining the coincident
pair is zeroed as vertical, and the other strip's two `y`-bounds are the
same line, so SymPy's equal-limits integral is exactly 0 (this holds even
though the degenerate plane itself is non-finite). -/
theorem C6_coincident_volume_zero (t : Triangle)
    (h : t.point_A = t.point_B ∨ t.point_A = t.point_C ∨ t.point_B = t.point_C) :
    t.get_volume = some 0 := by
  obtain ⟨A, B, C⟩ := t
  rcases h with h | h | h
  · cases h
    exact vol_coincident_head A C
  · cases h
    rw [← vol_rot A B A, ← vol_rot B A A]
    exact vol_coincident_head A B
  · cases h
    rw [← vol_rot A B B]
    exact vol_coincident_head B A
/-- Witness for C6 at the triangle `(0,0,1), (0,0,1), (1,0,1)`. -/
theorem C6_coincident_volume_zero_witness :
    ((Triangle.mk ⟨0, 0, 1⟩ ⟨0, 0, 1⟩ ⟨1, 0, 1⟩).point_A =
        (Triangle.mk ⟨0, 0, 1⟩ ⟨0, 0, 1⟩ ⟨1, 0, 1⟩).point_B ∨
      (Triangle.mk ⟨0, 0, 1⟩ ⟨0, 0, 1⟩ ⟨1, 0, 1⟩).point_A =
        (Triangle.mk ⟨0, 0, 1⟩ ⟨0, 0, 1⟩ ⟨1, 0, 1⟩).point_C ∨
      (Triangle.mk ⟨0, 0, 1⟩ ⟨0, 0, 1⟩ ⟨1, 0, 1⟩).point_B =
        (Triangle.mk ⟨0, 0, 1⟩ ⟨0, 0, 1⟩ ⟨1, 0, 1⟩).point_C) ∧
    (Triangle.mk ⟨0, 0, 1⟩ ⟨0, 0, 1⟩ ⟨1, 0, 1⟩).get_volume = some 0 :=
  ⟨Or.inl rfl,
   C6_coincident_volume_zero (Triangle.mk ⟨0, 0, 1⟩ ⟨0, 0, 1⟩ ⟨1, 0, 1⟩) (Or.inl rfl)⟩

/-- C4: `get_volume` is invariant under every permutation of the three input
vertices (the algorithm sorts the vertices by the `CartesianCoordinate`
order, and the derived plane does not depend on the vertex order). -/
theorem C4_volume_permutation_invariant (A B C : CartesianCoordinate) :
    (Triangle.mk A C B).get_volume = (Triangle.mk A B C).get_volume ∧
    (Triangle.mk B A C).get_volume = (Triangle.mk A B C).get_volume ∧
    (Triangle.mk B C A).get_volume = (Triangle.mk A B C).get_volume ∧
    (Triangle.mk C A B).get_volume = (Triangle.mk A B C).get_volume ∧
    (Triangle.mk C B A).get_volume = (Triangle.mk A B C).get_volume :=
  ⟨(vol_swapAB C A B).trans (vol_rot C A B).symm,
   vol_swapAB A B C,
   vol_rot A B C,
   (vol_rot C A B).symm,
   (vol_swapAB B C A).trans (vol_rot A B C)⟩

theorem optAdd_some_zero_left (v : Option ℚ) : optAdd (some 0) v = v := by
  cases v <;> simp [optAdd]

theorem optAdd_assoc (u v w : Option ℚ) :
    optAdd (optAdd u v) w = optAdd u (optAdd v w) := by
  cases u <;> cases v <;> cases w <;> simp [optAdd, add_assoc]

theorem foldl_optAdd (l : List (Option ℚ)) (acc : Option ℚ) :
    l.foldl optAdd acc = optAdd acc (optSum l) := by
  induction l generalizing acc with
  | nil =>
      cases acc <;> simp [optSum, optAdd]
  | cons v l ih =>
      simp only [List.foldl_cons, optSum, List.foldr_cons]
      rw [ih, ← optAdd_assoc]
      rfl

theorem coordOfRow_rowAt_map (pc : List Row) (g : Row → ℚ) (i : ℕ) :
    coordOfRow (rowAt (pc.map (setElevation g)) i) = coordOfRow (rowAt pc i) := by
  unfold rowAt
  rw [List.getD_eq_getElem?_getD, List.getD_eq_getElem?_getD,
    List.getElem?_map (setElevation g) pc i]
  cases pc[i]? with
  | none => rfl
  | some r => rfl

theorem triangleOfRows_setElevation (pc : List Row) (g : Row → ℚ) (ijk : ℕ × ℕ × ℕ) :
    triangleOfRows (pc.map (setElevation g)) ijk = triangleOfRows pc ijk := by
  unfold triangleOfRows
  rw [coordOfRow_rowAt_map, coordOfRow_rowAt_map, coordOfRow_rowAt_map]

theorem unitSquare_triangle1_volume (h : ℚ) :
    (Triangle.mk ⟨0, 0, h⟩ ⟨1, 0, h⟩ ⟨1, 1, h⟩).get_volume = some (|h| / 2) := by
  have hs : sort3 ⟨0, 0, h⟩ ⟨1, 0, h⟩ ⟨1, 1, h⟩ =
      (⟨0, 0, h⟩, ⟨1, 0, h⟩, ⟨1, 1, h⟩) := by
    simp only [sort3]
    rw [show List.insertionSort CartesianCoordinate.le
        [⟨0, 0, h⟩, ⟨1, 0, h⟩, ⟨1, 1, h⟩] =
        [⟨0, 0, h⟩, ⟨1, 0, h⟩, ⟨1, 1, h⟩] from by
      norm_num [List.insertionSort, List.orderedInsert, CartesianCoordinate.le]]
  unfold Triangle.get_volume
  rw [show (Triangle.mk ⟨0, 0, h⟩ ⟨1, 0, h⟩ ⟨1, 1, h⟩).point_A = ⟨0, 0, h⟩ from rfl,
    show (Triangle.mk ⟨0, 0, h⟩ ⟨1, 0, h⟩ ⟨1, 1, h⟩).point_B = ⟨1, 0, h⟩ from rfl,
    show (Triangle.mk ⟨0, 0, h⟩ ⟨1, 0, h⟩ ⟨1, 1, h⟩).point_C = ⟨1, 1, h⟩ from rfl, hs]
  dsimp only
  norm_num [Line2D.get_line_equation, compute_double_integral, doubleIntegral,
    innerCoeffs, polyInt3, optAbsAdd, Triangle.get_plane_equation, Triangle.planeCoeffs,
    Triangle.normal_vector, cross, vsub, Prod.ext_iff, abs_div]

theorem unitSquare_triangle2_volume (h : ℚ) :
    (Triangle.mk ⟨0, 0, h⟩ ⟨1, 1, h⟩ ⟨0, 1, h⟩).get_volume = some (|h| / 2) := by
  have hs : sort3 ⟨0, 0, h⟩ ⟨1, 1, h⟩ ⟨0, 1, h⟩ =
      (⟨0, 0, h⟩, ⟨0, 1, h⟩, ⟨1, 1, h⟩) := by
    simp only [sort3]
    rw [show List.insertionSort CartesianCoordinate.le
        [⟨0, 0, h⟩, ⟨1, 1, h⟩, ⟨0, 1, h⟩] =
        [⟨0, 0, h⟩, ⟨0, 1, h⟩, ⟨1, 1, h⟩] from by
      norm_num [List.insertionSort, List.orderedInsert, CartesianCoordinate.le]]
  unfold Triangle.get_volume
  rw [show (Triangle.mk ⟨0, 0, h⟩ ⟨1, 1, h⟩ ⟨0, 1, h⟩).point_A = ⟨0, 0, h⟩ from rfl,
    show (Triangle.mk ⟨0, 0, h⟩ ⟨1, 1, h⟩ ⟨0, 1, h⟩).point_B = ⟨1, 1, h⟩ from rfl,
    show (Triangle.mk ⟨0, 0, h⟩ ⟨1, 1, h⟩ ⟨0, 1, h⟩).point_C = ⟨0, 1, h⟩ from rfl, hs]
  dsimp only
  norm_num [Line2D.get_line_equation, compute_double_integral, doubleIntegral,
    innerCoeffs, polyInt3, optAbsAdd, Triangle.get_plane_equation, Triangle.planeCoeffs,
    Triangle.normal_vector, cross, vsub, Prod.ext_iff, abs_div]
  rw [show h + -h / 2 = h / 2 from by ring, abs_div]
  norm_num

theorem unitSquareMesh_volume_abs (h : ℚ) :
    (unitSquareMesh h).get_volume = some |h| := by
  have e1 : triangleOfRows (unitSquareMesh h).point_cloud (0, 1, 2) =
      Triangle.mk ⟨0, 0, h⟩ ⟨1, 0, h⟩ ⟨1, 1, h⟩ := rfl
  have e2 : triangleOfRows (unitSquareMesh h).point_cloud (0, 2, 3) =
      Triangle.mk ⟨0, 0, h⟩ ⟨1, 1, h⟩ ⟨0, 1, h⟩ := rfl
  show (unitSquareMesh h).data.foldl _ (some 0) = some |h|
  rw [show (unitSquareMesh h).data = [(0, 1, 2), (0, 2, 3)] from rfl]
  simp only [List.foldl_cons, List.foldl_nil]
  rw [e1, e2, unitSquare_triangle1_volume, unitSquare_triangle2_volume]
  simp only [optAdd]
  rw [Option.some.injEq]
  ring

/-- C8: `TriangularMesh.get_volume` is the unweighted sum, over all triangle
index-triples, of the volume of the triangle built from the `x, y, z` columns
of the three referenced rows; the `elevation` column is not consumed (mapping
it to arbitrary values changes nothing); and for the 2-triangle unit-square
mesh at constant height `h ≥ 0` it returns `1.0 * h`. -/
theorem C8_mesh_volume_is_sum :
    (∀ m : TriangularMesh, m.get_volume =
        optSum (m.data.map fun ijk => (triangleOfRows m.point_cloud ijk).get_volume)) ∧
    (∀ (m : TriangularMesh) (g : Row → ℚ),
        (TriangularMesh.mk (m.point_cloud.map (setElevation g)) m.data).get_volume =
          m.get_volume) ∧
    (∀ h : ℚ, 0 ≤ h → (unitSquareMesh h).get_volume = some (1 * h)) := by
  refine ⟨?_, ?_, ?_⟩
  · intro m
    unfold TriangularMesh.get_volume
    rw [← List.foldl_map, foldl_optAdd, optAdd_some_zero_left]
  · intro m g
    unfold TriangularMesh.get_volume
    simp only [triangleOfRows_setElevation]
  · intro h h0
    rw [unitSquareMesh_volume_abs, abs_of_nonneg h0, one_mul]

/-- Witness for C8 at `h = 1`. -/
theorem C8_mesh_volume_is_sum_witness :
    ((0 : ℚ) ≤ 1) ∧ (unitSquareMesh 1).get_volume = some (1 * 1) :=
  ⟨by norm_num, C8_mesh_volume_is_sum.2.2 1 (by norm_num)⟩

theorem volumeLoop_ok (pc : List Row) (n : ℕ) (l : List (ℕ × ℕ × ℕ)) (iteration : ℕ)
    (acc : Option ℚ) :
    volumeLoop pc n (fun _ _ => true) l iteration acc =
      .ok (l.foldl (fun acc2 ijk => optAdd acc2 (triangleOfRows pc ijk).get_volume) acc) := by
  induction l generalizing iteration acc with
  | nil => rfl
  | cons ijk l ih =>
      simp only [volumeLoop, List.foldl_cons, if_true]
      exact ih (iteration + 1) _

/-- C9 is violated by the code (`code_bug`): the loop body of
`TriangularMesh.get_volume` calls the progress sink with no exception
handling, so a sink call that raises aborts the whole volume computation.
With a never-failing sink the loop returns exactly `get_volume` (first
conjunct), but on a 1-triangle mesh whose volume is `1/6` (third conjunct) a
failing sink aborts with an error instead of returning that volume (second
conjunct). -/
theorem C9_sink_failure_aborts :
    (∀ m : TriangularMesh, m.get_volume_progress (fun _ _ => true) = .ok m.get_volume) ∧
    (TriangularMesh.mk [⟨0, 0, 0, 0⟩, ⟨1, 0, 0, 0⟩, ⟨0, 1, 1, 0⟩]
        [(0, 1, 2)]).get_volume_progress (fun _ _ => false) = .error () ∧
    (TriangularMesh.mk [⟨0, 0, 0, 0⟩, ⟨1, 0, 0, 0⟩, ⟨0, 1, 1, 0⟩]
        [(0, 1, 2)]).get_volume = some (1 / 6) := by
  refine ⟨?_, rfl, ?_⟩
  · intro m
    unfold TriangularMesh.get_volume_progress TriangularMesh.get_volume
    exact volumeLoop_ok m.point_cloud m.data.length m.data 0 (some 0)
  · show List.foldl _ (some 0) _ = some (1 / 6)
    simp only [List.foldl_cons, List.foldl_nil]
    rw [show triangleOfRows [⟨0, 0, 0, 0⟩, ⟨1, 0, 0, 0⟩, ⟨0, 1, 1, 0⟩] (0, 1, 2) =
      Triangle.mk ⟨0, 0, 0⟩ ⟨1, 0, 0⟩ ⟨0, 1, 1⟩ from rfl]
    rw [show (Triangle.mk ⟨0, 0, 0⟩ ⟨1, 0, 0⟩ ⟨0, 1, 1⟩).get_volume = some (1 / 6) from by
      norm_num [Triangle.get_volume, Triangle.get_plane_equation, Triangle.planeCoeffs,
        Triangle.normal_vector, cross, vsub, sort3, List.insertionSort, List.orderedInsert,
        CartesianCoordinate.le, Line2D.get_line_equation, compute_double_integral,
        doubleIntegral, innerCoeffs, polyInt3, optAbsAdd, Prod.ext_iff]]
    simp [optAdd]

theorem integral_affine (c d a b : ℝ) :
    ∫ y in a..b, (c + d * y) = c * (b - a) + d / 2 * (b ^ 2 - a ^ 2) := by
  rw [intervalIntegral.integral_add (intervalIntegrable_const)
      ((continuous_const.mul continuous_id').intervalIntegrable a b),
    intervalIntegral.integral_const, intervalIntegral.integral_const_mul,
    integral_id, smul_eq_mul]
  ring

theorem integral_quadratic (a0 a1 a2 x0 x1 : ℝ) :
    ∫ x in x0..x1, (a0 + a1 * x + a2 * x ^ 2) =
      a0 * (x1 - x0) + a1 / 2 * (x1 ^ 2 - x0 ^ 2) + a2 / 3 * (x1 ^ 3 - x0 ^ 3) := by
  have hq : IntervalIntegrable (fun x : ℝ => a2 * x ^ 2) MeasureTheory.volume x0 x1 :=
    (continuous_const.mul (continuous_pow 2)).intervalIntegrable x0 x1
  have hl : IntervalIntegrable (fun x : ℝ => a1 * x) MeasureTheory.volume x0 x1 :=
    (continuous_const.mul continuous_id').intervalIntegrable x0 x1
  rw [intervalIntegral.integral_add ((intervalIntegrable_const).add hl) hq,
    intervalIntegral.integral_add (intervalIntegrable_const) hl,
    intervalIntegral.integral_const, intervalIntegral.integral_const_mul,
    intervalIntegral.integral_const_mul, integral_id,
    integral_pow, smul_eq_mul]
  push_cast
  ring

/-- `doubleIntegral` is faithful to the SymPy call it embeds: over the reals
it is exactly the iterated integral
`∫ x in x0..x1, ∫ y in (m1*x+k1)..(m2*x+k2), (p + q*x + r*y)`. -/
theorem doubleIntegral_eq_iterated_integral (p q r m1 k1 m2 k2 x0 x1 : ℚ) :
    ((doubleIntegral (p, q, r) (m1, k1) (m2, k2) x0 x1 : ℚ) : ℝ) =
      ∫ x in (x0 : ℝ)..(x1 : ℝ),
        ∫ y in ((m1 : ℝ) * x + (k1 : ℝ))..((m2 : ℝ) * x + (k2 : ℝ)),
          ((p : ℝ) + (q : ℝ) * x + (r : ℝ) * y) := by
  have h12 : ∀ x : ℝ,
      (∫ y in ((m1 : ℝ) * x + (k1 : ℝ))..((m2 : ℝ) * x + (k2 : ℝ)),
        ((p : ℝ) + (q : ℝ) * x + (r : ℝ) * y)) =
      ((innerCoeffs p q r m1 k1 m2 k2).1 : ℝ) +
        ((innerCoeffs p q r m1 k1 m2 k2).2.1 : ℝ) * x +
        ((innerCoeffs p q r m1 k1 m2 k2).2.2 : ℝ) * x ^ 2 := by
    intro x
    rw [integral_affine ((p : ℝ) + (q : ℝ) * x) (r : ℝ)]
    push_cast [innerCoeffs]
    ring
  rw [intervalIntegral.integral_congr (g := fun x : ℝ =>
      ((innerCoeffs p q r m1 k1 m2 k2).1 : ℝ) +
        ((innerCoeffs p q r m1 k1 m2 k2).2.1 : ℝ) * x +
        ((innerCoeffs p q r m1 k1 m2 k2).2.2 : ℝ) * x ^ 2) (fun x _ => h12 x),
    integral_quadratic]
  push_cast [doubleIntegral, innerCoeffs, polyInt3]
  ring
